import Mathlib

/-!
Verification of the affordability-estimation core of an AI home-loan
assistant application (single source file `app.py`).

The embedded operations are:

* `parse_income_from_text` — extracts a monthly income figure from free
  text using two regular expressions, tried in order on the lowercased,
  comma-stripped text:
  pattern 1 (shorthand) `(r\s*)?(\d+(?:\.\d+)?)\s*k\b`, result = value × 1000;
  pattern 2 (plain)     `(r\s*)?(\d{4,7})(?:\b|\s)`,     result = value.
  The Python `re.search` semantics (leftmost starting position, greedy
  quantifiers with backtracking, alternatives tried in order) are embedded
  by explicit backtracking matchers specialised to these two patterns.

* `estimate_loan_amount` — annuity present-value estimate of the maximum
  principal.

* `handle_query` — the module-level per-query policy (offline branch,
  remote branch, quota fallback), with each streamlit output call
  (`st.success`/`st.write`/`st.info`/`st.warning`/`st.error`) recorded as
  an `Emit` event.

Modelling conventions:
* Python floats are modelled as exact rationals (`ℚ`); `float(s)` on a
  matched numeric group is exact decimal parsing.
* The character classes of Python `re` (`\d`, `\s`, `\w`, and the word
  boundary `\b`) and `str.lower()` are modelled at ASCII granularity.
* Python truthiness of `Optional[float]` (`if income:`) is `none` ↦ false,
  `some v` ↦ (v ≠ 0).
-/

namespace HomeLoanApp

/-- ASCII model of the regex word-character class `\w` = `[a-zA-Z0-9_]`. -/
def isWordChar (c : Char) : Bool :=
  ('a' ≤ c && c ≤ 'z') || ('A' ≤ c && c ≤ 'Z') || c.isDigit || c = '_'

/-- ASCII model of the regex whitespace class `\s` = `[ \t\n\r\x0b\x0c]`. -/
def isSpaceChar (c : Char) : Bool :=
  c = ' ' || c = '\t' || c = '\n' || c = '\r' || c = '\x0b' || c = '\x0c'

/-- Matches `\s*` followed by a token that cannot match whitespace: backtracking over
the star is equivalent to skipping the maximal whitespace run. -/
def skipSpaces (l : List Char) : List Char :=
  l.dropWhile isSpaceChar

/-- First-alternative-wins choice, as the regex engine tries alternatives. -/
def tryFirst {α : Type} (a b : Option α) : Option α :=
  match a with
  | some x => some x
  | none => b

/-- Numeric value of a digit string (the integer part of a `float` parse). -/
def natOfDigits (ds : List Char) : ℕ :=
  ds.foldl (fun a c => 10 * a + (c.toNat - 48)) 0

/-- Exact value of `float(s)` for a matched group `⟨intDs⟩` or
`⟨intDs⟩.⟨frDs⟩` (`frDs = []` encodes "no decimal point"). -/
def groupValue (intDs frDs : List Char) : ℚ :=
  (natOfDigits intDs : ℚ) + (natOfDigits frDs : ℚ) / (10 : ℚ) ^ frDs.length

/-- Computes `text.lower().replace(",", "")` over the character list. -/
def normalize (text : String) : List Char :=
  (text.toList.map Char.toLower).filter (fun c => c ≠ ',')

/-- Does `needle` occur as a contiguous substring of `hay`?  Models the
Python `in` operator on strings. -/
def containsSub (hay needle : List Char) : Bool :=
  needle.isPrefixOf hay ||
    match hay with
    | [] => false
    | _ :: t => containsSub t needle

/-! ### Pattern 1: `(r\s*)?(\d+(?:\.\d+)?)\s*k\b`  -/

/-- Matches `\b` directly after the literal `k` (a word character): matches iff the
input is exhausted or the next character is not a word character. -/
def afterKOk : List Char → Bool
  | [] => true
  | c :: _ => !(isWordChar c)

/-- The tail `\s*k\b` of pattern 1, after the numeric group. -/
def p1Tail (l : List Char) : Bool :=
  match skipSpaces l with
  | c :: rest => c = 'k' && afterKOk rest
  | [] => false

/-- Backtracking over the greedy `\d+` inside the optional fraction
`(?:\.\d+)?`: `fr` is the maximal digit run after the dot, `rest` the input
after that run; fraction lengths are tried longest first. -/
def p1TryFrac (intDs fr rest : List Char) : ℕ → Option (List Char × List Char)
  | 0 => none
  | j + 1 =>
    if j + 1 ≤ fr.length && p1Tail (fr.drop (j + 1) ++ rest) then
      some (intDs, fr.take (j + 1))
    else
      p1TryFrac intDs fr rest j

/-- After the integer digits `intDs` of group 2: the optional fraction
(tried first, per regex alternative order), then the tail `\s*k\b`. -/
def p1ContAfterInt (intDs rest : List Char) : Option (List Char × List Char) :=
  tryFirst
    (match rest with
     | c :: r2 =>
       if c = '.' then
         if (r2.takeWhile Char.isDigit).isEmpty then none
         else p1TryFrac intDs (r2.takeWhile Char.isDigit)
           (r2.drop (r2.takeWhile Char.isDigit).length) (r2.takeWhile Char.isDigit).length
       else none
     | [] => none)
    (if p1Tail rest then some (intDs, []) else none)

/-- Backtracking over the greedy `\d+` of group 2: `l` starts with a maximal
digit run; integer lengths are tried longest first. -/
def p1TryInt (l : List Char) : ℕ → Option (List Char × List Char)
  | 0 => none
  | j + 1 => tryFirst (p1ContAfterInt (l.take (j + 1)) (l.drop (j + 1))) (p1TryInt l j)

/-- Group 2 (`\d+(?:\.\d+)?`) and the rest of pattern 1, anchored where the
number must start. -/
def p1AtNumber (l : List Char) : Option (List Char × List Char) :=
  if (l.takeWhile Char.isDigit).isEmpty then none
  else p1TryInt l (l.takeWhile Char.isDigit).length

/-- Pattern 1 anchored at one starting position: the optional `(r\s*)?`
prefix alternative is tried first; at a position not holding `r` the prefix
can only match empty, and at an `r` the empty-prefix alternative would need
`\d` to match `r`, which always fails. -/
def p1AtPos (l : List Char) : Option (List Char × List Char) :=
  match l with
  | c :: rest => if c = 'r' then p1AtNumber (skipSpaces rest) else p1AtNumber (c :: rest)
  | [] => p1AtNumber []

/-- Models `re.search` for pattern 1: starting positions tried left to right. -/
def p1Search : List Char → Option (List Char × List Char)
  | [] => none
  | c :: rest => tryFirst (p1AtPos (c :: rest)) (p1Search rest)

/-! ### Pattern 2: `(r\s*)?(\d{4,7})(?:\b|\s)`  -/

/-- Matches `(?:\b|\s)` directly after the digits of group 2 (the preceding
character is a digit, hence a word character): end of input, a non-word
character (`\b`), or whitespace (`\s`). -/
def afterDigitsOk : List Char → Bool
  | [] => true
  | c :: _ => !(isWordChar c) || isSpaceChar c

/-- Backtracking over the greedy `\d{4,7}`: lengths tried from 7 down to 4;
`runLen` is the length of the maximal digit run at `l`. -/
def p2Go (l : List Char) (runLen : ℕ) : ℕ → Option (List Char)
  | 0 => none
  | j + 1 =>
    if j + 1 < 4 then none
    else if j + 1 ≤ runLen && afterDigitsOk (l.drop (j + 1)) then some (l.take (j + 1))
    else p2Go l runLen j

/-- Group 2 of pattern 2 and its lookahead, anchored where the digits must
start. -/
def p2AtDigits (l : List Char) : Option (List Char) :=
  p2Go l (l.takeWhile Char.isDigit).length 7

/-- Pattern 2 anchored at one starting position (same prefix treatment as
`p1AtPos`). -/
def p2AtPos (l : List Char) : Option (List Char) :=
  match l with
  | c :: rest => if c = 'r' then p2AtDigits (skipSpaces rest) else p2AtDigits (c :: rest)
  | [] => p2AtDigits []

/-- Models `re.search` for pattern 2: starting positions tried left to right. -/
def p2Search : List Char → Option (List Char)
  | [] => none
  | c :: rest => tryFirst (p2AtPos (c :: rest)) (p2Search rest)

/-! ### `parse_income_from_text`  -/

/-- Embedding of `parse_income_from_text(text)` of `app.py` (lines 32–52).  The argument
is `Option String` so that the Python `None` input is representable; the
guard `if not text` rejects `None` and the empty string.  The lowercased,
comma-stripped text `t` is written `normalize s`.  `float` applied to a
matched group of these patterns cannot raise, so the `try/except` around
each conversion never fires in the model. -/
def parse_income_from_text (text : Option String) : Option ℚ :=
  match text with
  | none => none
  | some s =>
    if s = "" then none
    else
      match p1Search (normalize s) with
      | some (ints, frs) => some (groupValue ints frs * 1000)
      | none =>
        match p2Search (normalize s) with
        | some ds => some ((natOfDigits ds : ℚ))
        | none => none

/-! ### `estimate_loan_amount`  -/

/-- Embedding of `estimate_loan_amount(monthly_income, annual_rate_pct, years,
repayment_pct)` of `app.py` (lines 55–74), with floats as exact rationals.
In the rational model the formula raises no exception (the power branch has
`1 + r > 1`), so the `except` branch returning `None` is unreachable. -/
def estimate_loan_amount (monthly_income annual_rate_pct : ℚ)
    (years repayment_pct : ℤ) : Option ℚ :=
  let affordable_payment : ℚ := monthly_income * ((repayment_pct : ℚ) / 100)
  let r : ℚ := (annual_rate_pct / 100) / 12
  let n : ℤ := years * 12
  if r ≤ 0 then some (affordable_payment * (n : ℚ))
  else some (max (affordable_payment * (1 - (1 + r) ^ (-n)) / r) 0)

/-! ### The per-query response policy (module level, lines 80–148)  -/

/-- One streamlit output call of the query handler, with the data that the
corresponding f-string renders. -/
inductive Emit where
  /-- Models `st.success("Estimated Affordability (Offline)")` -/
  | offlineHeader : Emit
  /-- Models `st.write` of the offline-estimate block (bond amount, income, rate,
  term, repayment cap). -/
  | estimateBody (est income rate : ℚ) (years pct : ℤ) : Emit
  /-- Models `st.info` offline guidance asking for an income figure. -/
  | offlineGuidance : Emit
  /-- Models `st.success("Answer:")` -/
  | answerHeader : Emit
  /-- Models `st.write(response.choices[0].message.content)` -/
  | answerBody (a : String) : Emit
  /-- Models `st.warning("OpenAI unavailable. Showing offline estimate instead.")` -/
  | degradedNotice : Emit
  /-- Models `st.error` about exceeded quota with no computable estimate. -/
  | quotaNoEstimateError : Emit
  /-- Models `st.error` about exceeded quota asking for billing or offline mode. -/
  | quotaNoIncomeError : Emit
  /-- Models `st.error` surfacing the failure detail `e`. -/
  | openaiError (detail : String) : Emit
deriving DecidableEq

/-- Computes `("insufficient_quota" in err_text) or ("Error code: 429" in err_text)`
(line 121). -/
def quotaMarker (e : String) : Bool :=
  containsSub e.toList "insufficient_quota".toList ||
    containsSub e.toList "Error code: 429".toList

/-- The module-level query handler (lines 80–148).  `client` is the remote
collaborator: `none` when no API key was configured; `some ask` models
`client.chat.completions.create`, returning the answer text (`Except.ok`)
or raising with exception text `e` (`Except.error`).  Returns the emitted
messages in order, and whether the remote collaborator was invoked.
Python truthiness `if income:` / `if est:` is `≠ none` and `≠ some 0`. -/
def handle_query (offline_mode : Bool) (client : Option (String → Except String String))
    (default_rate : ℚ) (default_years repayment_ratio : ℤ) (user_input : String) :
    List Emit × Bool :=
  if user_input = "" then ([], false)
  else
    -- lines 84–104: offline branch; second component is `used_offline`
    let offlinePart : List Emit × Bool :=
      if offline_mode || client.isNone then
        match parse_income_from_text (some user_input) with
        | some income =>
          if income ≠ 0 then
            match estimate_loan_amount income default_rate default_years repayment_ratio with
            | some est =>
              if est ≠ 0 then
                ([Emit.offlineHeader,
                  Emit.estimateBody est income default_rate default_years repayment_ratio], true)
              else ([Emit.offlineGuidance], false)
            | none => ([Emit.offlineGuidance], false)
          else ([Emit.offlineGuidance], false)
        | none => ([Emit.offlineGuidance], false)
      else ([], false)
    -- lines 107–148: remote branch with quota fallback
    if !offline_mode && client.isSome && !offlinePart.2 then
      match client with
      | some ask =>
        match ask user_input with
        | Except.ok answer =>
          (offlinePart.1 ++ [Emit.answerHeader, Emit.answerBody answer], true)
        | Except.error e =>
          if quotaMarker e then
            match parse_income_from_text (some user_input) with
            | some income =>
              if income ≠ 0 then
                match estimate_loan_amount income default_rate default_years repayment_ratio with
                | some est =>
                  if est ≠ 0 then
                    (offlinePart.1 ++ [Emit.degradedNotice, Emit.offlineHeader,
                      Emit.estimateBody est income default_rate default_years repayment_ratio],
                     true)
                  else (offlinePart.1 ++ [Emit.quotaNoEstimateError], true)
                | none => (offlinePart.1 ++ [Emit.quotaNoEstimateError], true)
              else (offlinePart.1 ++ [Emit.quotaNoIncomeError], true)
            | none => (offlinePart.1 ++ [Emit.quotaNoIncomeError], true)
          else (offlinePart.1 ++ [Emit.openaiError e], true)
      | none => (offlinePart.1, false)
    else (offlinePart.1, false)

/-! ### Unfolding lemmas for `parse_income_from_text`  -/

theorem parse_of_p1 (s : String) (hs : ¬ s = "") (i f : List Char)
    (h : p1Search (normalize s) = some (i, f)) :
    parse_income_from_text (some s) = some (groupValue i f * 1000) := by
  simp only [parse_income_from_text, if_neg hs, h]

theorem parse_of_p2 (s : String) (hs : ¬ s = "")
    (h1 : p1Search (normalize s) = none) (ds : List Char)
    (h2 : p2Search (normalize s) = some ds) :
    parse_income_from_text (some s) = some ((natOfDigits ds : ℚ)) := by
  simp only [parse_income_from_text, if_neg hs, h1, h2]

theorem parse_of_none (s : String)
    (h1 : p1Search (normalize s) = none) (h2 : p2Search (normalize s) = none) :
    parse_income_from_text (some s) = none := by
  by_cases hs : s = ""
  · subst hs; rfl
  · simp only [parse_income_from_text, if_neg hs, h1, h2]

/-! ### Character-class facts about digits  -/

theorem ne_of_isDigit {c : Char} (h : c.isDigit = true) (d : Char)
    (hd : d.isDigit = false) : ¬ c = d := by
  rintro rfl
  rw [hd] at h
  exact Bool.false_ne_true h

theorem isSpaceChar_of_isDigit {c : Char} (h : c.isDigit = true) :
    isSpaceChar c = false := by
  unfold isSpaceChar
  simp only [Bool.or_eq_false_iff, decide_eq_false_iff_not]
  refine ⟨⟨⟨⟨⟨?_, ?_⟩, ?_⟩, ?_⟩, ?_⟩, ?_⟩ <;>
    exact ne_of_isDigit h _ (by decide)

theorem isWordChar_of_isDigit {c : Char} (h : c.isDigit = true) :
    isWordChar c = true := by
  unfold isWordChar
  rw [h]
  simp

theorem toNat_le_of_isDigit {c : Char} (h : c.isDigit = true) : c.toNat ≤ 57 := by
  unfold Char.isDigit at h
  simp only [Bool.and_eq_true, decide_eq_true_eq] at h
  exact UInt32.toNat_le_of_le (by norm_num [UInt32.size]) h.2

theorem toLower_of_isDigit {c : Char} (h : c.isDigit = true) :
    Char.toLower c = c := by
  have hn : c.toNat ≤ 57 := toNat_le_of_isDigit h
  unfold Char.toLower
  rw [if_neg]
  intro hcon
  omega

/-! ### Behaviour of the matchers on all-digit text  -/

theorem skipSpaces_of_all_digit {l : List Char} (h : l.all Char.isDigit = true) :
    skipSpaces l = l := by
  cases l with
  | nil => rfl
  | cons c t =>
    simp only [List.all_cons, Bool.and_eq_true] at h
    unfold skipSpaces
    rw [List.dropWhile_cons, if_neg]
    rw [isSpaceChar_of_isDigit h.1]
    exact Bool.false_ne_true

theorem takeWhile_of_all_digit {l : List Char} (h : l.all Char.isDigit = true) :
    l.takeWhile Char.isDigit = l :=
  List.takeWhile_eq_self_iff.mpr (fun x hx => List.all_eq_true.mp h x hx)

theorem all_digit_drop {l : List Char} (h : l.all Char.isDigit = true) (n : ℕ) :
    (l.drop n).all Char.isDigit = true :=
  List.all_eq_true.mpr fun x hx => List.all_eq_true.mp h x (List.mem_of_mem_drop hx)

theorem all_digit_take {l : List Char} (h : l.all Char.isDigit = true) (n : ℕ) :
    (l.take n).all Char.isDigit = true :=
  List.all_eq_true.mpr fun x hx => List.all_eq_true.mp h x (List.mem_of_mem_take hx)

theorem p1Tail_of_all_digit {l : List Char} (h : l.all Char.isDigit = true) :
    p1Tail l = false := by
  unfold p1Tail
  rw [skipSpaces_of_all_digit h]
  cases l with
  | nil => rfl
  | cons c t =>
    simp only [List.all_cons, Bool.and_eq_true] at h
    have : ¬ c = 'k' := ne_of_isDigit h.1 'k' (by decide)
    simp [this]

theorem p1ContAfterInt_of_all_digit {l : List Char} (h : l.all Char.isDigit = true)
    (i : List Char) : p1ContAfterInt i l = none := by
  unfold p1ContAfterInt
  rw [p1Tail_of_all_digit h]
  cases l with
  | nil => rfl
  | cons c t =>
    simp only [List.all_cons, Bool.and_eq_true] at h
    have : ¬ c = '.' := ne_of_isDigit h.1 '.' (by decide)
    simp [this, tryFirst]

theorem p1TryInt_of_all_digit {l : List Char} (h : l.all Char.isDigit = true) :
    ∀ fuel, p1TryInt l fuel = none := by
  intro fuel
  induction fuel with
  | zero => rfl
  | succ j ih =>
    unfold p1TryInt
    rw [p1ContAfterInt_of_all_digit (all_digit_drop h (j + 1)), ih]
    rfl

theorem p1AtNumber_of_all_digit {l : List Char} (h : l.all Char.isDigit = true) :
    p1AtNumber l = none := by
  unfold p1AtNumber
  by_cases he : (l.takeWhile Char.isDigit).isEmpty
  · rw [if_pos he]
  · rw [if_neg he]
    exact p1TryInt_of_all_digit h _

theorem p1Search_of_all_digit {l : List Char} (h : l.all Char.isDigit = true) :
    p1Search l = none := by
  induction l with
  | nil => rfl
  | cons c t ih =>
    simp only [List.all_cons, Bool.and_eq_true] at h
    unfold p1Search
    have hr : ¬ c = 'r' := ne_of_isDigit h.1 'r' (by decide)
    have hat : p1AtPos (c :: t) = none := by
      simp only [p1AtPos]
      rw [if_neg hr]
      exact p1AtNumber_of_all_digit (by simp [h.1, h.2])
    rw [hat, ih h.2]
    rfl

theorem afterDigitsOk_of_digit_head {c : Char} (h : c.isDigit = true) (t : List Char) :
    afterDigitsOk (c :: t) = false := by
  simp only [afterDigitsOk]
  rw [isWordChar_of_isDigit h, isSpaceChar_of_isDigit h]
  rfl

theorem p2Go_of_all_digit_long {l : List Char} (h : l.all Char.isDigit = true)
    (hl : 7 < l.length) : ∀ fuel, fuel ≤ 7 → p2Go l l.length fuel = none := by
  intro fuel
  induction fuel with
  | zero => intro _; rfl
  | succ j ih =>
    intro hf
    unfold p2Go
    by_cases h4 : j + 1 < 4
    · rw [if_pos h4]
    · rw [if_neg h4]
      have hdrop : l.drop (j + 1) ≠ [] := by
        intro hc
        have := congrArg List.length hc
        simp only [List.length_drop, List.length_nil] at this
        omega
      obtain ⟨d, t, hdt⟩ := List.exists_cons_of_ne_nil hdrop
      have hd : d.isDigit = true := by
        have : d ∈ l.drop (j + 1) := by rw [hdt]; exact List.mem_cons_self d t
        exact List.all_eq_true.mp h d (List.mem_of_mem_drop this)
      rw [hdt, afterDigitsOk_of_digit_head hd]
      simp only [Bool.and_false, Bool.false_eq_true, if_false]
      exact ih (by omega)

theorem p2AtDigits_of_all_digit_long {l : List Char} (h : l.all Char.isDigit = true)
    (hl : 7 < l.length) : p2AtDigits l = none := by
  unfold p2AtDigits
  rw [takeWhile_of_all_digit h]
  exact p2Go_of_all_digit_long h hl 7 (le_refl 7)

theorem p2AtDigits_of_all_digit_seven {l : List Char} (h : l.all Char.isDigit = true)
    (hl : l.length = 7) : p2AtDigits l = some l := by
  unfold p2AtDigits
  rw [takeWhile_of_all_digit h]
  have hstep : p2Go l l.length 7 =
      if 6 + 1 < 4 then none
      else if (decide (6 + 1 ≤ l.length) && afterDigitsOk (l.drop (6 + 1))) then
        some (l.take (6 + 1))
      else p2Go l l.length 6 := rfl
  rw [hstep, if_neg (by omega)]
  have hdrop : l.drop (6 + 1) = [] := by
    have : l.drop l.length = [] := List.drop_length l
    rw [hl] at this; exact this
  rw [hdrop]
  have htake : l.take (6 + 1) = l := by
    have : l.take l.length = l := List.take_length l
    rw [hl] at this; exact this
  rw [if_pos (by rw [hl]; rfl), htake]

theorem p2Search_of_all_digit_long {l : List Char} (h : l.all Char.isDigit = true)
    (hl : 7 < l.length) : p2Search l = some (l.drop (l.length - 7)) := by
  induction l with
  | nil => simp at hl
  | cons c t ih =>
    simp only [List.all_cons, Bool.and_eq_true] at h
    have hr : ¬ c = 'r' := ne_of_isDigit h.1 'r' (by decide)
    have hct : (c :: t).all Char.isDigit = true := by simp [h.1, h.2]
    unfold p2Search
    rcases Nat.lt_or_ge 7 t.length with h7 | h7
    · have hat : p2AtPos (c :: t) = none := by
        simp only [p2AtPos]
        rw [if_neg hr]
        exact p2AtDigits_of_all_digit_long hct (by simp; omega)
      rw [hat]
      unfold tryFirst
      rw [ih h.2 h7]
      have h1 : (c :: t).length - 7 = (t.length - 7) + 1 := by simp; omega
      rw [h1, List.drop_succ_cons]
    · -- here t.length ≤ 7 and 7 < (c :: t).length, so t.length = 7
      have h7' : t.length = 7 := by simp at hl; omega
      have hat : p2AtPos (c :: t) = none := by
        simp only [p2AtPos]
        rw [if_neg hr]
        exact p2AtDigits_of_all_digit_long hct (by simp; omega)
      rw [hat]
      unfold tryFirst
      obtain ⟨d, t', hdt⟩ := List.exists_cons_of_ne_nil
        (by intro hc; rw [hc] at h7'; simp at h7' : t ≠ [])
      have hd : d.isDigit = true := by
        have : d ∈ t := by rw [hdt]; exact List.mem_cons_self d t'
        exact List.all_eq_true.mp h.2 d this
      have hdr : ¬ d = 'r' := ne_of_isDigit hd 'r' (by decide)
      have hstep : p2Search t = some t := by
        rw [hdt]
        unfold p2Search
        have : p2AtPos (d :: t') = some (d :: t') := by
          simp only [p2AtPos]
          rw [if_neg hdr]
          exact p2AtDigits_of_all_digit_seven (by rw [← hdt]; exact h.2)
            (by rw [← hdt]; exact h7')
        rw [this]
        rw [← hdt]
        rfl
      rw [hstep]
      have h1 : (c :: t).length - 7 = 1 := by simp; omega
      rw [h1, List.drop_succ_cons, List.drop_zero]

/-! ### Bounds on every pattern-2 match  -/

theorem all_digit_take_of_le_takeWhile {l : List Char} {k : ℕ}
    (hk : k ≤ (l.takeWhile Char.isDigit).length) :
    (l.take k).all Char.isDigit = true := by
  have hsplit : l.takeWhile Char.isDigit ++ l.dropWhile Char.isDigit = l :=
    List.takeWhile_append_dropWhile Char.isDigit l
  have : l.take k = (l.takeWhile Char.isDigit).take k := by
    conv_lhs => rw [← hsplit]
    rw [List.take_append_eq_append_take, Nat.sub_eq_zero_of_le hk]
    simp
  rw [this]
  exact List.all_eq_true.mpr fun x hx =>
    List.mem_takeWhile_imp (List.mem_of_mem_take hx)

theorem p2Go_bounds {l : List Char} {runLen : ℕ}
    (hrun : runLen ≤ (l.takeWhile Char.isDigit).length) :
    ∀ fuel, fuel ≤ 7 → ∀ ds, p2Go l runLen fuel = some ds →
      4 ≤ ds.length ∧ ds.length ≤ 7 ∧ ds.all Char.isDigit = true := by
  intro fuel
  induction fuel with
  | zero => intro _ ds hds; exact absurd hds (by unfold p2Go; simp)
  | succ j ih =>
    intro hf ds hds
    unfold p2Go at hds
    by_cases h4 : j + 1 < 4
    · rw [if_pos h4] at hds; exact absurd hds (by simp)
    · rw [if_neg h4] at hds
      by_cases hcond : (decide (j + 1 ≤ runLen) && afterDigitsOk (l.drop (j + 1))) = true
      · rw [if_pos hcond] at hds
        simp only [Bool.and_eq_true, decide_eq_true_eq] at hcond
        have hlen : j + 1 ≤ l.length := by
          calc j + 1 ≤ runLen := hcond.1
            _ ≤ (l.takeWhile Char.isDigit).length := hrun
            _ ≤ l.length := (List.takeWhile_sublist _).length_le
        obtain rfl : l.take (j + 1) = ds := by injection hds
        refine ⟨?_, ?_, ?_⟩
        · rw [List.length_take]; omega
        · rw [List.length_take]; omega
        · exact all_digit_take_of_le_takeWhile (le_trans hcond.1 hrun)
      · rw [if_neg hcond] at hds
        exact ih (by omega) ds hds

theorem p2AtDigits_bounds {l : List Char} {ds : List Char}
    (h : p2AtDigits l = some ds) :
    4 ≤ ds.length ∧ ds.length ≤ 7 ∧ ds.all Char.isDigit = true :=
  p2Go_bounds (le_refl _) 7 (le_refl 7) ds h

theorem p2AtPos_bounds {l : List Char} {ds : List Char}
    (h : p2AtPos l = some ds) :
    4 ≤ ds.length ∧ ds.length ≤ 7 ∧ ds.all Char.isDigit = true := by
  cases l with
  | nil => exact p2AtDigits_bounds h
  | cons c rest =>
    simp only [p2AtPos] at h
    by_cases hc : c = 'r'
    · rw [if_pos hc] at h; exact p2AtDigits_bounds h
    · rw [if_neg hc] at h; exact p2AtDigits_bounds h

theorem p2Search_bounds {l : List Char} {ds : List Char}
    (h : p2Search l = some ds) :
    4 ≤ ds.length ∧ ds.length ≤ 7 ∧ ds.all Char.isDigit = true := by
  induction l with
  | nil => exact absurd h (by unfold p2Search; simp)
  | cons c t ih =>
    unfold p2Search at h
    rcases hat : p2AtPos (c :: t) with _ | ds'
    · rw [hat] at h
      unfold tryFirst at h
      exact ih h
    · rw [hat] at h
      unfold tryFirst at h
      obtain rfl : ds' = ds := by injection h
      exact p2AtPos_bounds hat

/-! ### `normalize` on all-digit strings  -/

theorem normalize_of_all_digit {ds : List Char} (h : ds.all Char.isDigit = true) :
    normalize (String.mk ds) = ds := by
  unfold normalize
  have htl : (String.mk ds).toList = ds := rfl
  rw [htl]
  have hmap : ds.map Char.toLower = ds := by
    have := List.map_congr_left (l := ds) (f := Char.toLower) (g := id)
      (fun a ha => toLower_of_isDigit (List.all_eq_true.mp h a ha))
    rw [this, List.map_id]
  rw [hmap]
  refine List.filter_eq_self.mpr ?_
  intro a ha
  have : ¬ a = ',' := ne_of_isDigit (List.all_eq_true.mp h a ha) ',' (by decide)
  simp [this]

/-! ### Branch lemmas for the query handler  -/

theorem handle_query_offline (om : Bool) (client : Option (String → Except String String))
    (rate : ℚ) (y p : ℤ) (input : String) (hin : ¬ input = "")
    (h : om = true ∨ client = none) :
    handle_query om client rate y p input =
      ((match parse_income_from_text (some input) with
        | some income =>
          if income ≠ 0 then
            match estimate_loan_amount income rate y p with
            | some est =>
              if est ≠ 0 then [Emit.offlineHeader, Emit.estimateBody est income rate y p]
              else [Emit.offlineGuidance]
            | none => [Emit.offlineGuidance]
          else [Emit.offlineGuidance]
        | none => [Emit.offlineGuidance]),
       false) := by
  have hcond : (om || client.isNone) = true := by
    rcases h with rfl | rfl
    · rfl
    · simp
  have hcond2 : ∀ b : Bool, (!om && client.isSome && b) = false := by
    intro b
    rcases h with rfl | rfl
    · rfl
    · simp
  simp only [handle_query, if_neg hin, hcond, hcond2]
  rcases hp : parse_income_from_text (some input) with _ | income
  · simp [hp]
  · by_cases hi : income = 0
    · simp [hp, hi]
    · rcases he : estimate_loan_amount income rate y p with _ | est
      · simp [hp, hi, he]
      · by_cases hest : est = 0
        · simp [hp, hi, he, hest]
        · simp [hp, hi, he, hest]

theorem handle_query_remote_error (ask : String → Except String String)
    (rate : ℚ) (y p : ℤ) (input : String) (e : String) (hin : ¬ input = "")
    (he : ask input = Except.error e) :
    handle_query false (some ask) rate y p input =
      ((if quotaMarker e then
          (match parse_income_from_text (some input) with
           | some income =>
             if income ≠ 0 then
               match estimate_loan_amount income rate y p with
               | some est =>
                 if est ≠ 0 then
                   [Emit.degradedNotice, Emit.offlineHeader,
                    Emit.estimateBody est income rate y p]
                 else [Emit.quotaNoEstimateError]
               | none => [Emit.quotaNoEstimateError]
             else [Emit.quotaNoIncomeError]
           | none => [Emit.quotaNoIncomeError])
        else [Emit.openaiError e]),
       true) := by
  simp only [handle_query, if_neg hin]
  by_cases hq : quotaMarker e = true
  · simp only [he, hq]
    rcases hp : parse_income_from_text (some input) with _ | income
    · simp [hp]
    · by_cases hi : income = 0
      · simp [hp, hi]
      · rcases hee : estimate_loan_amount income rate y p with _ | est
        · simp [hp, hi, hee]
        · by_cases hest : est = 0
          · simp [hp, hi, hee, hest]
          · simp [hp, hi, hee, hest]
  · simp [he, hq]

/-! ## Claim theorems  -/

/-- Claim C4, counterexample.  The claim states that for every string
containing a 4-to-7-digit run (bounded, not itself part of a k-shorthand)
`extractIncome` returns that number.  It fails when the shorthand pattern
matches elsewhere in the text: in "I have 20k and earn 25000" the run
"25000" is a bounded 5-digit run not part of any shorthand, yet the
function returns 20000.0 (from "20k"), not 25000.0. -/
theorem claim_C4_counterexample :
    parse_income_from_text (some "I have 20k and earn 25000") = some 20000 ∧
    ¬ parse_income_from_text (some "I have 20k and earn 25000") = some 25000 := by
  have h := parse_of_p1 "I have 20k and earn 25000" (by decide) ['2', '0'] [] (by decide)
  constructor
  · rw [h]
    norm_num [groupValue, show natOfDigits ['2', '0'] = 20 from rfl,
      show natOfDigits ([] : List Char) = 0 from rfl]
  · rw [h]
    norm_num [groupValue, show natOfDigits ['2', '0'] = 20 from rfl,
      show natOfDigits ([] : List Char) = 0 from rfl]

/-- Claim C4, amended: when the shorthand pattern 1 matches nowhere in the
normalized text and pattern 2 finds digits `ds`, `extractIncome` returns
the value of `ds` as a float; every pattern-2 match consists of 4 to 7
digits (so runs shorter than 4 digits are rejected); and
"I earn 25000 monthly" ↦ 25000.0. -/
theorem claim_C4_amended :
    (∀ (s : String) (ds : List Char),
        p1Search (normalize s) = none → p2Search (normalize s) = some ds →
        parse_income_from_text (some s) = some ((natOfDigits ds : ℚ))) ∧
    (∀ (l ds : List Char), p2Search l = some ds →
        4 ≤ ds.length ∧ ds.length ≤ 7 ∧ ds.all Char.isDigit = true) ∧
    parse_income_from_text (some "I earn 25000 monthly") = some 25000 := by
  refine ⟨?_, ?_, ?_⟩
  · intro s ds h1 h2
    by_cases hs : s = ""
    · subst hs
      rw [show normalize "" = [] from rfl] at h2
      exact absurd h2 (by simp [p2Search])
    · exact parse_of_p2 s hs h1 ds h2
  · intro l ds h
    exact p2Search_bounds h
  · rw [parse_of_p2 "I earn 25000 monthly" (by decide) (by decide)
      ['2', '5', '0', '0', '0'] (by decide)]
    norm_num [show natOfDigits ['2', '5', '0', '0', '0'] = 25000 from rfl]

/-- Witness for the amended claim C4 at a concrete input. -/
theorem claim_C4_witness :
    parse_income_from_text (some "salary is 5000") =
      some ((natOfDigits ['5', '0', '0', '0'] : ℚ)) :=
  claim_C4_amended.1 "salary is 5000" ['5', '0', '0', '0'] (by decide) (by decide)

/-- Claim C5, counterexample.  The claim states that strings whose digit
runs all exceed 7 digits yield an absent result; in fact the regex engine
advances the starting position into the run and matches its final 7
digits: `extractIncome("1234567890")` = 4567890.0 and
`extractIncome("my phone is 1234567890123")` = 7890123.0, not absent. -/
theorem claim_C5_counterexample :
    parse_income_from_text (some "1234567890") = some 4567890 ∧
    parse_income_from_text (some "my phone is 1234567890123") = some 7890123 := by
  constructor
  · rw [parse_of_p2 "1234567890" (by decide) (by decide)
      ['4', '5', '6', '7', '8', '9', '0'] (by decide)]
    norm_num [show natOfDigits ['4', '5', '6', '7', '8', '9', '0'] = 4567890 from rfl]
  · rw [parse_of_p2 "my phone is 1234567890123" (by decide) (by decide)
      ['7', '8', '9', '0', '1', '2', '3'] (by decide)]
    norm_num [show natOfDigits ['7', '8', '9', '0', '1', '2', '3'] = 7890123 from rfl]

/-- Claim C5, amended: on an input consisting of a single digit run longer
than 7 digits, the 4-to-7 bound does not reject the run; `extractIncome`
returns the number formed by the final 7 digits of the run (the pattern-2
match whose 7 digits end at the trailing word boundary). -/
theorem claim_C5_amended (ds : List Char) (had : ds.all Char.isDigit = true)
    (hlen : 7 < ds.length) :
    parse_income_from_text (some (String.mk ds)) =
      some ((natOfDigits (ds.drop (ds.length - 7)) : ℚ)) := by
  have hne : ¬ (String.mk ds = "") := by
    intro hc
    have h2 : ds = [] := congrArg String.data hc
    rw [h2] at hlen
    simp at hlen
  have hnorm : normalize (String.mk ds) = ds := normalize_of_all_digit had
  refine parse_of_p2 _ hne ?_ _ ?_
  · rw [hnorm]
    exact p1Search_of_all_digit had
  · rw [hnorm]
    exact p2Search_of_all_digit_long had hlen

/-- Witness for the amended claim C5 at the input "1234567890". -/
theorem claim_C5_witness :
    parse_income_from_text
        (some (String.mk ['1', '2', '3', '4', '5', '6', '7', '8', '9', '0'])) =
      some ((natOfDigits ((['1', '2', '3', '4', '5', '6', '7', '8', '9', '0'] :
        List Char).drop
          ((['1', '2', '3', '4', '5', '6', '7', '8', '9', '0'] : List Char).length - 7)) :
        ℚ)) :=
  claim_C5_amended ['1', '2', '3', '4', '5', '6', '7', '8', '9', '0'] (by decide) (by decide)

/-- Claim C6: whenever the shorthand pattern 1 matches (optional currency
marker `r`, optional whitespace, a number with optional decimal part,
optional whitespace, a whole-word `k`), `extractIncome` returns the matched
number × 1000, and pattern 1 takes precedence over the plain 4–7-digit
pattern 2.  Concretely "r20k" ↦ 20000.0, "R 7.5k" ↦ 7500.0, and on
"r20k or 25000" (where pattern 2 would find 25000) the result is 20000.0. -/
theorem claim_C6_shorthand :
    (∀ (s : String) (i f : List Char),
        p1Search (normalize s) = some (i, f) →
        parse_income_from_text (some s) = some (groupValue i f * 1000)) ∧
    parse_income_from_text (some "r20k") = some 20000 ∧
    parse_income_from_text (some "R 7.5k") = some 7500 ∧
    (p2Search (normalize "r20k or 25000") = some ['2', '5', '0', '0', '0'] ∧
      parse_income_from_text (some "r20k or 25000") = some 20000) := by
  refine ⟨?_, ?_, ?_, ?_, ?_⟩
  · intro s i f h
    by_cases hs : s = ""
    · subst hs
      rw [show normalize "" = [] from rfl] at h
      exact absurd h (by simp [p1Search])
    · exact parse_of_p1 s hs i f h
  · rw [parse_of_p1 "r20k" (by decide) ['2', '0'] [] (by decide)]
    norm_num [groupValue, show natOfDigits ['2', '0'] = 20 from rfl,
      show natOfDigits ([] : List Char) = 0 from rfl]
  · rw [parse_of_p1 "R 7.5k" (by decide) ['7'] ['5'] (by decide)]
    norm_num [groupValue, show natOfDigits ['7'] = 7 from rfl,
      show natOfDigits ['5'] = 5 from rfl]
  · decide
  · rw [parse_of_p1 "r20k or 25000" (by decide) ['2', '0'] [] (by decide)]
    norm_num [groupValue, show natOfDigits ['2', '0'] = 20 from rfl,
      show natOfDigits ([] : List Char) = 0 from rfl]

/-- Witness for claim C6 at the concrete input "r20k". -/
theorem claim_C6_witness :
    parse_income_from_text (some "r20k") = some (groupValue ['2', '0'] [] * 1000) :=
  claim_C6_shorthand.1 "r20k" ['2', '0'] [] (by decide)

/-- Claim C8: neither function propagates an exception.  In the embedding
both are total; `extractIncome` yields absent (not an error) on the null
and empty inputs, and `estimate_loan_amount` always produces a value in
the exact-rational model (the `except` branch that would yield absent on a
numeric fault is unreachable, so a fault is never propagated). -/
theorem claim_C8_totality :
    parse_income_from_text none = none ∧
    parse_income_from_text (some "") = none ∧
    (∀ (mi rate : ℚ) (y p : ℤ), ∃ v : ℚ, estimate_loan_amount mi rate y p = some v) := by
  refine ⟨rfl, rfl, ?_⟩
  intro mi rate y p
  unfold estimate_loan_amount
  by_cases hr : (rate / 100) / 12 ≤ 0
  · exact ⟨_, by rw [if_pos hr]⟩
  · exact ⟨_, by rw [if_neg hr]⟩

/-- Claim C1: for nonnegative income, repayment percentage and term,
`estimate_loan_amount` computes the affordable payment
`monthlyIncome × repaymentPct/100`, the periodic rate
`r = (annualRatePct/100)/12` and the period count `n = termYears × 12`,
and returns `affordablePayment × n` when `r ≤ 0`, and otherwise the
present value `affordablePayment × (1 − (1+r)^(−n))/r` of an `n`-period
annuity at rate `r` (the `max(⋅, 0)` clamp of the source is inactive on
this domain).  The nonnegativity hypotheses reflect the data model
(extracted income and the configured assumptions are nonnegative). -/
theorem claim_C1_estimate_formula (mi rate : ℚ) (y p : ℤ)
    (hmi : 0 ≤ mi) (hp : 0 ≤ p) (hy : 0 ≤ y) :
    estimate_loan_amount mi rate y p =
      some (if (rate / 100) / 12 ≤ 0
        then mi * ((p : ℚ) / 100) * (((y * 12 : ℤ)) : ℚ)
        else mi * ((p : ℚ) / 100) *
          (1 - (1 + (rate / 100) / 12) ^ (-(y * 12))) / ((rate / 100) / 12)) := by
  unfold estimate_loan_amount
  by_cases hr : (rate / 100) / 12 ≤ 0
  · rw [if_pos hr, if_pos hr]
  · rw [if_neg hr, if_neg hr]
    congr 1
    apply max_eq_left
    have hrpos : 0 < (rate / 100) / 12 := not_le.mp hr
    have hP : 0 ≤ mi * ((p : ℚ) / 100) :=
      mul_nonneg hmi (div_nonneg (by exact_mod_cast hp) (by norm_num))
    have ha : (1 + (rate / 100) / 12) ^ (-(y * 12)) ≤ 1 :=
      zpow_le_one_of_nonpos₀ (by linarith) (by omega)
    have hnum : 0 ≤ mi * ((p : ℚ) / 100) * (1 - (1 + (rate / 100) / 12) ^ (-(y * 12))) :=
      mul_nonneg hP (by linarith)
    exact div_nonneg hnum (le_of_lt hrpos)

/-- Witness for claim C1: the zero-rate example of the specification,
`estimateLoanAmount(10000, 0, 10, 30) = 3000 × 120 = 360000` exactly. -/
theorem claim_C1_witness : estimate_loan_amount 10000 0 10 30 = some 360000 := by
  rw [claim_C1_estimate_formula 10000 0 10 30 (by norm_num) (by norm_num) (by norm_num)]
  norm_num

/-- Claim C7, counterexample.  The claim states the result is clamped to a
minimum of 0 in both branches; in fact the `r ≤ 0` branch of the source
applies no `max(⋅, 0)` clamp, so a negative income yields a negative
principal: `estimate_loan_amount(-1000, 0, 20, 30) = -72000 < 0`. -/
theorem claim_C7_counterexample :
    estimate_loan_amount (-1000) 0 20 30 = some (-72000) ∧ ((-72000 : ℚ) < 0) := by
  constructor
  · norm_num [estimate_loan_amount]
  · norm_num

/-- Claim C7, amended: the clamp exists only in the `r > 0` branch; the
returned value is nonnegative whenever the rate is positive (clamped
branch) or all of income, repayment percentage and term are nonnegative
(unclamped `r ≤ 0` branch). -/
theorem claim_C7_amended (mi rate : ℚ) (y p : ℤ) (v : ℚ)
    (h : estimate_loan_amount mi rate y p = some v)
    (hside : 0 < rate ∨ (0 ≤ mi ∧ 0 ≤ p ∧ 0 ≤ y)) : 0 ≤ v := by
  unfold estimate_loan_amount at h
  by_cases hr : (rate / 100) / 12 ≤ 0
  · rw [if_pos hr] at h
    obtain rfl : mi * ((p : ℚ) / 100) * (((y * 12 : ℤ)) : ℚ) = v := by injection h
    rcases hside with hrate | ⟨h1, h2, h3⟩
    · exfalso
      have : 0 < (rate / 100) / 12 := by positivity
      linarith
    · have hP : 0 ≤ mi * ((p : ℚ) / 100) :=
        mul_nonneg h1 (div_nonneg (by exact_mod_cast h2) (by norm_num))
      have hn : (0 : ℚ) ≤ (((y * 12 : ℤ)) : ℚ) := by
        have : (0 : ℤ) ≤ y * 12 := by omega
        exact_mod_cast this
      exact mul_nonneg hP hn
  · rw [if_neg hr] at h
    obtain rfl : max (mi * ((p : ℚ) / 100) *
        (1 - (1 + (rate / 100) / 12) ^ (-(y * 12))) / ((rate / 100) / 12)) 0 = v := by
      injection h
    exact le_max_right _ 0

/-- Witness for the amended claim C7 at a concrete input. -/
theorem claim_C7_witness : (0 : ℚ) ≤ 0 ∧ estimate_loan_amount 0 0 0 0 = some 0 :=
  ⟨claim_C7_amended 0 0 0 0 0 (by norm_num [estimate_loan_amount])
      (Or.inr ⟨le_refl 0, le_refl 0, le_refl 0⟩),
   by norm_num [estimate_loan_amount]⟩

/-- Claim C9: for fixed rate and repayment percentage (the latter
nonnegative, as in the data model), the estimate is monotonically
increasing in the monthly income (for a nonnegative term) and in the term
(for a nonnegative income): raising either never decreases the principal. -/
theorem claim_C9_monotone (rate : ℚ) (p : ℤ) (hp : 0 ≤ p) :
    (∀ (i1 i2 : ℚ) (y : ℤ), 0 ≤ y → i1 ≤ i2 →
      (estimate_loan_amount i1 rate y p).getD 0 ≤
        (estimate_loan_amount i2 rate y p).getD 0) ∧
    (∀ (i : ℚ) (y1 y2 : ℤ), 0 ≤ i → 0 ≤ y1 → y1 ≤ y2 →
      (estimate_loan_amount i rate y1 p).getD 0 ≤
        (estimate_loan_amount i rate y2 p).getD 0) := by
  have hq : (0 : ℚ) ≤ (p : ℚ) / 100 := div_nonneg (by exact_mod_cast hp) (by norm_num)
  constructor
  · intro i1 i2 y hy h12
    unfold estimate_loan_amount
    by_cases hr : (rate / 100) / 12 ≤ 0
    · rw [if_pos hr, if_pos hr]
      simp only [Option.getD_some]
      have hn : (0 : ℚ) ≤ (((y * 12 : ℤ)) : ℚ) := by
        have : (0 : ℤ) ≤ y * 12 := by omega
        exact_mod_cast this
      exact mul_le_mul_of_nonneg_right (mul_le_mul_of_nonneg_right h12 hq) hn
    · rw [if_neg hr, if_neg hr]
      simp only [Option.getD_some]
      have hrpos : 0 < (rate / 100) / 12 := not_le.mp hr
      apply max_le_max _ (le_refl 0)
      have ha : (1 + (rate / 100) / 12) ^ (-(y * 12)) ≤ 1 :=
        zpow_le_one_of_nonpos₀ (by linarith) (by omega)
      have hstep : i1 * ((p : ℚ) / 100) * (1 - (1 + (rate / 100) / 12) ^ (-(y * 12))) ≤
          i2 * ((p : ℚ) / 100) * (1 - (1 + (rate / 100) / 12) ^ (-(y * 12))) :=
        mul_le_mul_of_nonneg_right (mul_le_mul_of_nonneg_right h12 hq) (by linarith)
      exact (div_le_div_iff_of_pos_right hrpos).mpr hstep
  · intro i y1 y2 hi hy1 h12
    unfold estimate_loan_amount
    by_cases hr : (rate / 100) / 12 ≤ 0
    · rw [if_pos hr, if_pos hr]
      simp only [Option.getD_some]
      have hP : 0 ≤ i * ((p : ℚ) / 100) := mul_nonneg hi hq
      have hn : (((y1 * 12 : ℤ)) : ℚ) ≤ (((y2 * 12 : ℤ)) : ℚ) := by
        have : (y1 * 12 : ℤ) ≤ y2 * 12 := by omega
        exact_mod_cast this
      exact mul_le_mul_of_nonneg_left hn hP
    · rw [if_neg hr, if_neg hr]
      simp only [Option.getD_some]
      have hrpos : 0 < (rate / 100) / 12 := not_le.mp hr
      apply max_le_max _ (le_refl 0)
      have hP : 0 ≤ i * ((p : ℚ) / 100) := mul_nonneg hi hq
      have hzp : (1 + (rate / 100) / 12) ^ (-(y2 * 12)) ≤
          (1 + (rate / 100) / 12) ^ (-(y1 * 12)) :=
        zpow_le_zpow_right₀ (by linarith) (by omega)
      have hsub : 1 - (1 + (rate / 100) / 12) ^ (-(y1 * 12)) ≤
          1 - (1 + (rate / 100) / 12) ^ (-(y2 * 12)) := by linarith
      have hstep : i * ((p : ℚ) / 100) * (1 - (1 + (rate / 100) / 12) ^ (-(y1 * 12))) ≤
          i * ((p : ℚ) / 100) * (1 - (1 + (rate / 100) / 12) ^ (-(y2 * 12))) :=
        mul_le_mul_of_nonneg_left hsub hP
      exact (div_le_div_iff_of_pos_right hrpos).mpr hstep

/-- Witness for claim C9 at concrete inputs. -/
theorem claim_C9_witness :
    (estimate_loan_amount 100 0 10 30).getD 0 ≤ (estimate_loan_amount 200 0 10 30).getD 0 ∧
    (estimate_loan_amount 100 0 10 30).getD 0 ≤ (estimate_loan_amount 100 0 20 30).getD 0 :=
  ⟨(claim_C9_monotone 0 30 (by norm_num)).1 100 200 10 (by norm_num) (by norm_num),
   (claim_C9_monotone 0 30 (by norm_num)).2 100 10 20 (by norm_num) (by norm_num)
     (by norm_num)⟩

/-- Claim C2: whenever offline mode is enabled or no remote collaborator is
configured, the per-query policy runs extractor → estimator on the query,
emits the offline estimate (header + body) as the final answer when both
produce a (truthy) value and the offline guidance message otherwise, and
never invokes the remote collaborator (second component `false`), even
when one is configured. -/
theorem claim_C2_offline_policy (om : Bool)
    (client : Option (String → Except String String))
    (rate : ℚ) (y p : ℤ) (input : String) (hin : ¬ input = "")
    (h : om = true ∨ client = none) :
    handle_query om client rate y p input =
      ((match parse_income_from_text (some input) with
        | some income =>
          if income ≠ 0 then
            match estimate_loan_amount income rate y p with
            | some est =>
              if est ≠ 0 then [Emit.offlineHeader, Emit.estimateBody est income rate y p]
              else [Emit.offlineGuidance]
            | none => [Emit.offlineGuidance]
          else [Emit.offlineGuidance]
        | none => [Emit.offlineGuidance]),
       false) :=
  handle_query_offline om client rate y p input hin h

/-- Witness for claim C2: offline mode on, query "I earn R15,000 per month",
with a configured remote collaborator that is nevertheless not invoked;
the offline estimate for income 15000 at rate 0, 20 years, 30% is
emitted. -/
theorem claim_C2_witness :
    handle_query true (some fun _ => Except.ok "remote answer") 0 20 30
        "I earn R15,000 per month" =
      ([Emit.offlineHeader, Emit.estimateBody 1080000 15000 0 20 30], false) := by
  have hparse : parse_income_from_text (some "I earn R15,000 per month") = some 15000 := by
    rw [parse_of_p2 "I earn R15,000 per month" (by decide) (by decide)
      ['1', '5', '0', '0', '0'] (by decide)]
    norm_num [show natOfDigits ['1', '5', '0', '0', '0'] = 15000 from rfl]
  have hest : estimate_loan_amount 15000 0 20 30 = some 1080000 := by
    norm_num [estimate_loan_amount]
  rw [claim_C2_offline_policy true (some fun _ => Except.ok "remote answer") 0 20 30
    "I earn R15,000 per month" (by decide) (Or.inl rfl), hparse]
  norm_num [hest]

/-- Claim C3: with offline mode off and a configured remote collaborator
whose call fails with detail `e`, the offline fallback runs iff `e`
carries the quota marker ("insufficient_quota" or "Error code: 429"): in
the quota case the policy emits the degraded notice plus offline estimate
when extraction and estimation produce truthy values, and a quota error
message otherwise; for any other failure it emits only the error
surfacing `e`, with no fallback output. -/
theorem claim_C3_remote_failure_policy (ask : String → Except String String)
    (rate : ℚ) (y p : ℤ) (input : String) (e : String) (hin : ¬ input = "")
    (he : ask input = Except.error e) :
    handle_query false (some ask) rate y p input =
      ((if quotaMarker e then
          (match parse_income_from_text (some input) with
           | some income =>
             if income ≠ 0 then
               match estimate_loan_amount income rate y p with
               | some est =>
                 if est ≠ 0 then
                   [Emit.degradedNotice, Emit.offlineHeader,
                    Emit.estimateBody est income rate y p]
                 else [Emit.quotaNoEstimateError]
               | none => [Emit.quotaNoEstimateError]
             else [Emit.quotaNoIncomeError]
           | none => [Emit.quotaNoIncomeError])
        else [Emit.openaiError e]),
       true) :=
  handle_query_remote_error ask rate y p input e hin he

/-- Witness for claim C3: a quota-marked failure with extractable income
"r12k" yields the degraded-mode offline estimate; the estimate for income
12000 at rate 0, 20 years, 30% is 864000. -/
theorem claim_C3_witness :
    handle_query false (some fun _ => Except.error "Error code: 429") 0 20 30
        "I earn r12k" =
      ([Emit.degradedNotice, Emit.offlineHeader,
        Emit.estimateBody 864000 12000 0 20 30], true) := by
  have hparse : parse_income_from_text (some "I earn r12k") = some 12000 := by
    rw [parse_of_p1 "I earn r12k" (by decide) ['1', '2'] [] (by decide)]
    norm_num [groupValue, show natOfDigits ['1', '2'] = 12 from rfl,
      show natOfDigits ([] : List Char) = 0 from rfl]
  have hest : estimate_loan_amount 12000 0 20 30 = some 864000 := by
    norm_num [estimate_loan_amount]
  have hq : quotaMarker "Error code: 429" = true := by decide
  rw [claim_C3_remote_failure_policy (fun _ => Except.error "Error code: 429") 0 20 30
    "I earn r12k" "Error code: 429" (by decide) rfl]
  rw [hq, if_pos rfl, hparse]
  norm_num [hest]

/-- Claim C10: the policy conflates a value of exactly 0 with absence,
because Python truthiness treats `0.0` like `None`: if the extractor
returns 0.0 (e.g. the only digit run of the query is "0000"), or the extractor
returns a nonzero income but the estimator returns 0.0, then the offline
branch emits the guidance message and the quota-fallback branch emits the
corresponding quota error message, instead of an estimate of 0. -/
theorem claim_C10_zero_conflation :
    (∀ (om : Bool) (client : Option (String → Except String String)) (rate : ℚ)
        (y p : ℤ) (input : String), ¬ input = "" → (om = true ∨ client = none) →
        parse_income_from_text (some input) = some 0 →
        handle_query om client rate y p input = ([Emit.offlineGuidance], false)) ∧
    (∀ (om : Bool) (client : Option (String → Except String String)) (rate : ℚ)
        (y p : ℤ) (input : String) (income : ℚ), ¬ input = "" →
        (om = true ∨ client = none) →
        parse_income_from_text (some input) = some income → ¬ income = 0 →
        estimate_loan_amount income rate y p = some 0 →
        handle_query om client rate y p input = ([Emit.offlineGuidance], false)) ∧
    (∀ (ask : String → Except String String) (rate : ℚ) (y p : ℤ)
        (input e : String), ¬ input = "" →
        ask input = Except.error e → quotaMarker e = true →
        parse_income_from_text (some input) = some 0 →
        handle_query false (some ask) rate y p input =
          ([Emit.quotaNoIncomeError], true)) ∧
    (∀ (ask : String → Except String String) (rate : ℚ) (y p : ℤ)
        (input e : String) (income : ℚ), ¬ input = "" →
        ask input = Except.error e → quotaMarker e = true →
        parse_income_from_text (some input) = some income → ¬ income = 0 →
        estimate_loan_amount income rate y p = some 0 →
        handle_query false (some ask) rate y p input =
          ([Emit.quotaNoEstimateError], true)) := by
  refine ⟨?_, ?_, ?_, ?_⟩
  · intro om client rate y p input hin h hp
    rw [handle_query_offline om client rate y p input hin h, hp]
    simp
  · intro om client rate y p input income hin h hp hi hest
    rw [handle_query_offline om client rate y p input hin h, hp]
    simp [hi, hest]
  · intro ask rate y p input e hin he hq hp
    rw [handle_query_remote_error ask rate y p input e hin he, hq, if_pos rfl, hp]
    simp
  · intro ask rate y p input e income hin he hq hp hi hest
    rw [handle_query_remote_error ask rate y p input e hin he, hq, if_pos rfl, hp]
    simp [hi, hest]

/-- Witness for claim C10: the query "0000" extracts the income 0.0 and is
treated as absent by both branches, and with a zero-year term the estimate
0.0 is likewise treated as absent by both branches. -/
theorem claim_C10_witness :
    (handle_query true none 0 20 30 "0000" = ([Emit.offlineGuidance], false) ∧
      handle_query false (some fun _ => Except.error "insufficient_quota") 0 20 30 "0000" =
        ([Emit.quotaNoIncomeError], true)) ∧
    (handle_query true none 0 0 30 "I earn 25000 monthly" =
        ([Emit.offlineGuidance], false) ∧
      handle_query false (some fun _ => Except.error "insufficient_quota") 0 0 30
          "I earn 25000 monthly" =
        ([Emit.quotaNoEstimateError], true)) := by
  have hparse : parse_income_from_text (some "0000") = some 0 := by
    rw [parse_of_p2 "0000" (by decide) (by decide) ['0', '0', '0', '0'] (by decide)]
    norm_num [show natOfDigits ['0', '0', '0', '0'] = 0 from rfl]
  have hparse2 : parse_income_from_text (some "I earn 25000 monthly") = some 25000 := by
    rw [parse_of_p2 "I earn 25000 monthly" (by decide) (by decide)
      ['2', '5', '0', '0', '0'] (by decide)]
    norm_num [show natOfDigits ['2', '5', '0', '0', '0'] = 25000 from rfl]
  have hest0 : estimate_loan_amount 25000 0 0 30 = some 0 := by
    norm_num [estimate_loan_amount]
  refine ⟨⟨?_, ?_⟩, ?_, ?_⟩
  · exact claim_C10_zero_conflation.1 true none 0 20 30 "0000" (by decide) (Or.inl rfl)
      hparse
  · exact claim_C10_zero_conflation.2.2.1 (fun _ => Except.error "insufficient_quota")
      0 20 30 "0000" "insufficient_quota" (by decide) rfl (by decide) hparse
  · exact claim_C10_zero_conflation.2.1 true none 0 0 30 "I earn 25000 monthly" 25000
      (by decide) (Or.inl rfl) hparse2 (by norm_num) hest0
  · exact claim_C10_zero_conflation.2.2.2 (fun _ => Except.error "insufficient_quota")
      0 0 30 "I earn 25000 monthly" "insufficient_quota" 25000 (by decide) rfl
      (by decide) hparse2 (by norm_num) hest0

/-!  ### Sanity checks of the matching layer against traced `re` behaviour -/
example : p1Search (normalize "20k") = some (['2', '0'], []) := by decide
example : p1Search (normalize "I earn R20,000 per month") = none := by decide
example : p2Search (normalize "I earn R20,000 per month") = some ['2', '0', '0', '0', '0'] := by
  decide
example : p1Search (normalize "R5k") = some (['5'], []) := by decide
example : p1Search (normalize "R 7.5k") = some (['7'], ['5']) := by decide
example : p1Search (normalize "r 20 k") = some (['2', '0'], []) := by decide
example : p1Search (normalize "I earn 25000 monthly") = none := by decide
example : p2Search (normalize "I earn 25000 monthly") = some ['2', '5', '0', '0', '0'] := by decide
example : p2Search (normalize "1234567890") = some ['4', '5', '6', '7', '8', '9', '0'] := by decide
example : p1Search (normalize "my phone is 1234567890123") = none := by decide
example : p2Search (normalize "my phone is 1234567890123") =
    some ['7', '8', '9', '0', '1', '2', '3'] := by decide
example : p1Search (normalize "I have 20k and earn 25000") = some (['2', '0'], []) := by decide
example : p2Search (normalize "0000") = some ['0', '0', '0', '0'] := by decide
example : p1Search (normalize "hello") = none := by decide
example : p2Search (normalize "hello") = none := by decide
example : p2Search (normalize "123") = none := by decide
example : p2Search (normalize "1234abc") = none := by decide
example : p1Search (normalize "1234abc") = none := by decide
example : natOfDigits ['2', '5', '0', '0', '0'] = 25000 := by decide
example : parse_income_from_text none = none := by rfl
example : estimate_loan_amount 10000 0 10 30 = some 360000 := by
  norm_num [estimate_loan_amount]

end HomeLoanApp
